import Mathlib

/-!
Verification of the AbxRxPro data-fusion and correlation engine.

The development shallowly embeds the two core components of the repository:

* `abxgenecorr.py` — the `abxcorr` class: phenotype–genotype Pearson
  correlation and its ten-bucket strength classification;
* `abxrxpro.py` — the `DataHandler` fusion methods `assign_gene`,
  `get_RGI`, `get_staramr`, `get_amrfinder` and the genotype-loading
  dispatch of `DataHandler.__call__`.

Python dictionaries are modelled as association lists (Python dicts
preserve insertion order, which the association list keeps); float
arithmetic of pandas is modelled over `ℚ` (the classification thresholds
and every concrete value the claims rely on are exact decimal fractions);
a float `NaN` correlation is modelled as `none`.  Iteration order of a
Python `set` is hash-dependent and unspecified, so it enters the model as
an explicit function parameter wherever it matters.
-/

abbrev Isolate := String
abbrev Abx := String
abbrev Gene := String

/-- Genotype map of one isolate: antibiotic-or-class key to the list of
gene identifiers collected for it (a Python dict of lists). -/
abbrev GenoMap := List (Abx × List Gene)

/-- The fused structure `self.data`: isolate to genotype map. -/
abbrev FusedData := List (Isolate × GenoMap)

/-- One phenotype cell: the four categorical calls accepted by the tool. -/
inductive Phen
  | R
  | S
  | U
  | I
deriving DecidableEq

/-- Numeric encoding of a phenotype call, from
`pheno.replace({"R" : 1, "S" : 0, "U" : 0, "I" : 0.5})` in
`abxcorr.__init__` (src/abxgenecorr.py line 32). -/
def phenValue : Phen → ℚ
  | .R => 1
  | .S => 0
  | .U => 0
  | .I => 0.5

/-- The strength classifier `abxcorr.strength` (src/abxgenecorr.py lines
93–126), translated branch for branch; the chained Python comparison
`a >= x >= b` is the conjunction `a ≥ x ∧ x ≥ b`.  For a float `NaN`
every comparison is false and the final `else` is reached; the `NaN`
case is carried by `strengthO` below.  The two spellings of the
negligible label are the source's own. -/
def strength (x : ℚ) : String :=
  if x ≥ 0.7 then "very strong positive relationship"
  else if 0.69 ≥ x ∧ x ≥ 0.4 then "strong positive relationship"
  else if 0.39 ≥ x ∧ x ≥ 0.3 then "moderate positive relationship"
  else if 0.29 ≥ x ∧ x ≥ 0.2 then "weak positive relationship"
  else if 0.19 ≥ x ∧ x ≥ 0.01 then "No or negligible relationship"
  else if -0.01 ≥ x ∧ x ≥ -0.19 then "No or neglibigle relationship"
  else if -0.2 ≥ x ∧ x ≥ -0.29 then "weak negative relationship"
  else if -0.3 ≥ x ∧ x ≥ -0.39 then "moderate negative relationship"
  else if -0.4 ≥ x ∧ x ≥ -0.69 then "strong negative relationship"
  else if -0.7 ≥ x then "very strong negative relationship"
  else "No relationship"

/-- Strength of a possibly undefined (`NaN`) coefficient: in Python every
comparison with `NaN` is false, so `abxcorr.strength` falls through every
branch to the final `else`. -/
def strengthO : Option ℚ → String
  | none => "No relationship"
  | some x => strength x

/-- The ten semantic buckets of the specification's table (§4.2), plus
the suppressed no-relationship outcome.  Both spellings of the source's
negligible label denote the single negligible bucket (spec §9). -/
inductive Bucket
  | veryStrongPos
  | strongPos
  | modPos
  | weakPos
  | negligible
  | weakNeg
  | modNeg
  | strongNeg
  | veryStrongNeg
  | noRel
deriving DecidableEq

/-- Map from the source's label strings to the semantic buckets of the
specification's table. -/
def bucketOf : String → Bucket
  | "very strong positive relationship" => .veryStrongPos
  | "strong positive relationship" => .strongPos
  | "moderate positive relationship" => .modPos
  | "weak positive relationship" => .weakPos
  | "No or negligible relationship" => .negligible
  | "No or neglibigle relationship" => .negligible
  | "weak negative relationship" => .weakNeg
  | "moderate negative relationship" => .modNeg
  | "strong negative relationship" => .strongNeg
  | "very strong negative relationship" => .veryStrongNeg
  | _ => .noRel

/-- Exact rational square root used to model the float square root inside
the Pearson formula: exact whenever numerator and denominator of the
radicand are perfect squares, which covers every case whose numeric
value the analysis relies on (elsewhere only definedness matters). -/
def ratSqrt (q : ℚ) : ℚ := (Int.sqrt q.num : ℚ) / (Nat.sqrt q.den : ℚ)

/-- Mean of a series, as used by pandas `Series.corr`. -/
def sampleMean (l : List ℚ) : ℚ := l.sum / l.length

/-- Sample variance of a series (denominator `n - 1`), as used by pandas
`Series.corr`. -/
def sampleVar (l : List ℚ) : ℚ :=
  (l.map (fun a => (a - sampleMean l) * (a - sampleMean l))).sum / ((l.length : ℚ) - 1)

/-- Sample covariance of two equally long series (denominator `n - 1`). -/
def sampleCov (xs ys : List ℚ) : ℚ :=
  ((xs.zip ys).map (fun p => (p.1 - sampleMean xs) * (p.2 - sampleMean ys))).sum
    / ((xs.length : ℚ) - 1)

/-- Pearson correlation as computed by `self.phen[b].corr(r)`
(src/abxgenecorr.py line 47): sample covariance over the square root of
the product of the sample variances.  The float result is `NaN` exactly
when a variance vanishes (then the covariance vanishes too and the
quotient is `0/0`); the `NaN` outcome is modelled as `none`. -/
def pearson (xs ys : List ℚ) : Option ℚ :=
  if sampleVar xs = 0 ∨ sampleVar ys = 0 then none
  else some (sampleCov xs ys / ratSqrt (sampleVar xs * sampleVar ys))

/-- The gene-presence test of `abxcorr.fetch_results`:
`antibiotic in values.keys() and gene in values[antibiotic]`
(src/abxgenecorr.py line 87). -/
def genePresent (m : GenoMap) (antibiotic : Abx) (gene : Gene) : Bool :=
  match m.lookup antibiotic with
  | some genes => genes.contains gene
  | none => false

/-- The gene-presence indicator series of `abxcorr.fetch_results`
(src/abxgenecorr.py lines 84–90): one entry per isolate of the fused
data, in isolate order; an isolate whose genotype map holds `gene` under
`antibiotic` scores `0 + 1 = 1`, every other isolate keeps its initial
`0`. -/
def fetch_results (data : FusedData) (antibiotic : Abx) (gene : Gene) : List ℚ :=
  data.map (fun im => if genePresent im.2 antibiotic gene then 1 else 0)

/-- State of an `abxcorr` instance (src/abxgenecorr.py lines 30–33):
the fused genotype data, the phenotype table (columns plus the
per-column categorical calls), and the antibiotic-to-class map from
`settings.json` (`self.class_antibiotic`, an insertion-ordered dict
modelled as an association list antibiotic ↦ class). -/
structure AbxCorr where
  data : FusedData
  phenCols : List Abx
  phenRaw : Abx → Isolate → Phen
  class_antibiotic : List (Abx × String)

/-- Numeric phenotype column for antibiotic `b`, over a given isolate
sequence: the `self.phen[b]` series after the categorical replacement,
aligned with those isolates. -/
def phenColumn (c : AbxCorr) (isolates : List Isolate) (b : Abx) : List ℚ :=
  isolates.map (fun i => phenValue (c.phenRaw b i))

/-- The antibiotic resolver `abxcorr.get_abx` (src/abxgenecorr.py lines
70–81): a key that is a value of the class map expands to every
antibiotic mapped to that class and present among the phenotype
columns (in the class map's order); any other key is returned as the
single candidate.  The `gene` argument is taken and ignored exactly as
in the source. -/
def get_abx (c : AbxCorr) (gene : Gene) (antibiotic : Abx) : List Abx :=
  if (c.class_antibiotic.map Prod.snd).contains antibiotic then
    ((c.class_antibiotic.filter
        (fun p => p.2 == antibiotic && c.phenCols.contains p.1)).map Prod.fst)
  else [antibiotic]

/-- One step of the accumulation loop of
`abxcorr.get_antibiotic_gene_pairs` (src/abxgenecorr.py lines 56–62):
a key already present has the incoming genes appended to its entry
(`antibiotic_gene_pair[antibiotic] += genes`); a new key is inserted at
the end (`antibiotic_gene_pair[antibiotic] = genes`). -/
def insPair (acc : List (Abx × List Gene)) (p : Abx × List Gene) : List (Abx × List Gene) :=
  if acc.any (fun q => q.1 == p.1) then
    acc.map (fun q => if q.1 == p.1 then (q.1, q.2 ++ p.2) else q)
  else acc ++ [p]

/-- The accumulated (key ↦ gene list) index built by the double loop of
`abxcorr.get_antibiotic_gene_pairs`, before the final `set()`
conversion: a left fold of `insPair` over every (key, gene list) item
of every isolate, isolates in fused order. -/
def collectPairs (data : FusedData) : List (Abx × List Gene) :=
  (data.flatMap Prod.snd).foldl insPair []

/-- Genes carried by the entries of a (key, gene list) sequence under
key `k`, in sequence order. -/
def gensFor (L : List (Abx × List Gene)) (k : Abx) : List Gene :=
  (L.filter (fun p => p.1 == k)).flatMap Prod.snd

/-- All genes recorded under key `k` anywhere in the fused data, in
scanning order (isolates in fused order, each isolate's entries in
insertion order). -/
def allGenes (data : FusedData) (k : Abx) : List Gene :=
  gensFor (data.flatMap Prod.snd) k

/-- Keep-first deduplication: each element at its first appearance, so
the result lists the distinct elements in "discovery order" in the
specification's sense.  It also serves as one possible iteration order
of a Python `set`. -/
def dedupFirst : List Gene → List Gene
  | [] => []
  | a :: l => a :: (dedupFirst l).filter (fun b => b != a)

/-- The antibiotic-or-class keys of the fused data in discovery order:
order of first appearance while scanning isolates. -/
def discoveryKeys (data : FusedData) : List Abx :=
  dedupFirst ((data.flatMap Prod.snd).map Prod.fst)

/-- First isolate of the fused data whose genotype map holds key `k`. -/
def firstHolder (data : FusedData) (k : Abx) : Option Isolate :=
  (data.find? (fun im => im.2.any (fun p => p.1 == k))).map Prod.fst

/-- The side effect of `abxcorr.get_antibiotic_gene_pairs` on the fused
data: `antibiotic_gene_pair[antibiotic] = genes` stores a reference to
the first holding isolate's gene list, and every later
`antibiotic_gene_pair[antibiotic] += genes` extends that aliased list in
place.  After the call, the first isolate holding key `k` therefore
holds the whole accumulated gene list for `k`; every other entry is
untouched. -/
def mutateData (data : FusedData) : FusedData :=
  data.map (fun im =>
    (im.1, im.2.map (fun p =>
      if firstHolder data p.1 == some im.1 then (p.1, allGenes data p.1) else p)))

/-- The full effect of `abxcorr.get_antibiotic_gene_pairs`
(src/abxgenecorr.py lines 53–67): it returns the accumulated index with
each gene list replaced by `set(genes)` — a Python set iterates in an
unspecified hash-dependent order, modelled by the explicit `setIter`
parameter — and leaves `self.data` mutated as described at
`mutateData`. -/
def get_antibiotic_gene_pairs (setIter : List Gene → List Gene) (data : FusedData) :
    List (Abx × List Gene) × FusedData :=
  ((collectPairs data).map (fun p => (p.1, setIter p.2)), mutateData data)

/-- One correlation record as printed by `abxcorr.__call__`:
(gene, antibiotic column, coefficient, strength label). -/
abbrev CorrRecord := Gene × Abx × Option ℚ × String

/-- The correlation records computed for pair (key `antibiotic`, gene)
by the inner loop of `abxcorr.__call__` (src/abxgenecorr.py lines
42–48), before the no-relationship suppression: one per resolved
antibiotic column `b` that passes the `b in self.phen.columns` check,
correlating `self.phen[b]` with the indicator series of the (by then
mutated) fused data. -/
def computedRecords (c : AbxCorr) (data' : FusedData) (antibiotic : Abx) (gene : Gene) :
    List CorrRecord :=
  ((get_abx c gene antibiotic).filter (fun b => c.phenCols.contains b)).map (fun b =>
    (gene, b,
     pearson (phenColumn c (data'.map Prod.fst) b) (fetch_results data' antibiotic gene),
     strengthO (pearson (phenColumn c (data'.map Prod.fst) b)
       (fetch_results data' antibiotic gene))))

/-- The records actually printed for the pair: `abxcorr.__call__`
(src/abxgenecorr.py lines 49–50) prints only records whose strength is
not the literal string "No relationship". -/
def emittedRecords (c : AbxCorr) (data' : FusedData) (antibiotic : Abx) (gene : Gene) :
    List CorrRecord :=
  (computedRecords c data' antibiotic gene).filter
    (fun r => !(r.2.2.2 == "No relationship"))

/-- The whole correlation pass `abxcorr.__call__` (src/abxgenecorr.py
lines 36–50) as the sequence of printed records: pair index keys in
accumulation order, genes in the set-iteration order `setIter`,
resolved antibiotics in `get_abx` order; `fetch_results` runs on the
fused data as mutated by `get_antibiotic_gene_pairs`. -/
def runCorr (setIter : List Gene → List Gene) (c : AbxCorr) : List CorrRecord :=
  let pd := get_antibiotic_gene_pairs setIter c.data
  pd.1.flatMap (fun kg => kg.2.flatMap (fun g => emittedRecords c pd.2 kg.1 g))

/-- The output sequence in the order asserted by the specification:
keys in discovery order and, within a key, genes in discovery order
(first appearance while scanning isolates).  Stated from the spec's
words, for comparison with `runCorr`. -/
def claimOrderedOutput (c : AbxCorr) : List CorrRecord :=
  (discoveryKeys c.data).flatMap (fun k =>
    (dedupFirst (allGenes c.data k)).flatMap (fun g =>
      emittedRecords c (mutateData c.data) k g))

/-- State of the `DataHandler` fusion accumulators (src/abxrxpro.py
lines 152–158): `self.data` (isolate ↦ key ↦ gene list) and
`self.GeneFrequencies` (gene ↦ isolate list, the `"isolates"` entry). -/
structure DHState where
  data : FusedData
  GeneFrequencies : List (Gene × List Isolate)

/-- Append `v` to the list stored under `key` in an insertion-ordered
dict-of-lists, creating `key ↦ [v]` at the end when the key is new:
the shared shape of both updates in `DataHandler.assign_gene`
(`if key in d.keys(): d[key].append(v) else: d[key] = [v]`). -/
def appendUnder {α : Type} (l : List (String × List α)) (key : String) (v : α) :
    List (String × List α) :=
  if l.any (fun p => p.1 == key) then
    l.map (fun p => if p.1 == key then (p.1, p.2 ++ [v]) else p)
  else l ++ [(key, [v])]

/-- `DataHandler.assign_gene` (src/abxrxpro.py lines 292–302): appends
the gene to `self.data[ID][antibiotic]` (creating the key with a
singleton list when absent) and the isolate to
`self.GeneFrequencies[gene]["isolates"]` (creating the entry when the
gene is new).  `self.data[ID]` is subscripted unconditionally, so an
isolate absent from the phenotype-derived map raises `KeyError`,
modelled as `none`. -/
def assign_gene (s : DHState) (ID : Isolate) (antibiotic : Abx) (gene : Gene) :
    Option DHState :=
  match s.data.lookup ID with
  | none => none
  | some m =>
      some ⟨s.data.map
              (fun q => if q.1 == ID then (q.1, appendUnder m antibiotic gene) else q),
            appendUnder s.GeneFrequencies gene ID⟩

/-- Initial fusion state built by `DataHandler.__call__`
(src/abxrxpro.py line 202): one empty genotype map per isolate ID of the
phenotype table, and no gene frequencies. -/
def initState (isolates : List Isolate) : DHState :=
  ⟨isolates.map (fun i => (i, [])), []⟩

/-- A sequence of fusion steps: `assign_gene` calls applied in order;
a `KeyError` (absent isolate) aborts, as the exception would. -/
def runAssigns (s : DHState) (calls : List (Isolate × Abx × Gene)) : Option DHState :=
  calls.foldlM (fun s t => assign_gene s t.1 t.2.1 t.2.2) s

/-- Failure modes of the genotype loaders that the claims exercise:
an empty glob result (`pd.concat` of no files raises `ValueError`,
re-raised as `FileNotFoundError`, src/abxrxpro.py lines 312–316,
342–346, 378–382) and a `KeyError` escaping `assign_gene`. -/
inductive LoadError
  | noFilesFound
  | keyError
deriving DecidableEq

/-- Lift an `assign_gene` call into the loader error monad. -/
def applyAssign (s : DHState) (t : Isolate × Abx × Gene) : Except LoadError DHState :=
  match assign_gene s t.1 t.2.1 t.2.2 with
  | none => .error .keyError
  | some s' => .ok s'

/-- One staramr summary row, after the tab-separated parse and the
comma splits of src/abxrxpro.py lines 324–325: the `Genotype` gene list
and the `Predicted Phenotype` antibiotic list (title-cased text is
modelled as already canonical). -/
structure StaramrRow where
  Genotype : List Gene
  PredictedPhenotype : List Abx

/-- One staramr report file: the isolate ID recovered from the file
name (`_staramr.t*` stripped) and its rows. -/
structure StaramrFile where
  isolate : Isolate
  rows : List StaramrRow

/-- The antibiotic–gene pairs one staramr row contributes: rows whose
genotype contains the marker "None" are dropped
(src/abxrxpro.py line 319), then `zip(row[2], row[1])` pairs the
predicted antibiotics with the gene names positionally
(line 328). -/
def staramrAssigns (f : StaramrFile) : List (Isolate × Abx × Gene) :=
  (f.rows.filter (fun r => !(r.Genotype.contains "None"))).flatMap (fun r =>
    (r.PredictedPhenotype.zip r.Genotype).map (fun p => (f.isolate, p.1, p.2)))

/-- `DataHandler.get_staramr` (src/abxrxpro.py lines 305–332): an empty
glob result is a hard `FileNotFoundError`; otherwise every row's pairs
are handed to `assign_gene` in order. -/
def get_staramr (files : List StaramrFile) (s : DHState) : Except LoadError DHState :=
  if files.isEmpty then .error .noFilesFound
  else (files.flatMap staramrAssigns).foldlM applyAssign s

/-- One RGI row: the `Best_Hit_ARO` gene and the `Drug Class` cell,
`none` when missing (`isna`); a present cell is the class list after
the " antibiotic" strip, title-casing and "; " split of
src/abxrxpro.py lines 351–354. -/
structure RGIRow where
  bestHitARO : Gene
  drugClass : Option (List String)

/-- One RGI report file: isolate ID from the file name and its rows. -/
structure RGIFile where
  isolate : Isolate
  rows : List RGIRow

/-- The inner helper `filter_antibiotics` of `DataHandler.get_RGI`
(src/abxrxpro.py lines 357–360): pluralize each class with `'s'` and
keep those that are values of the user's class selection. -/
def filter_antibiotics (classSel : List (Abx × String)) (Class : List String) : List String :=
  (Class.map (fun antibiotic => antibiotic ++ "s")).filter
    (fun x => (classSel.map Prod.snd).contains x)

/-- The antibiotic–gene pairs one RGI file contributes: rows without a
drug class are dropped (line 349), each remaining class list is
filtered by `filter_antibiotics` (rows left with an empty list vanish,
line 363), and each kept class keys the row's gene (lines 364–366). -/
def rgiAssigns (classSel : List (Abx × String)) (f : RGIFile) : List (Isolate × Abx × Gene) :=
  f.rows.flatMap (fun r =>
    match r.drugClass with
    | none => []
    | some cls => (filter_antibiotics classSel cls).map (fun a => (f.isolate, a, r.bestHitARO)))

/-- `DataHandler.get_RGI` (src/abxrxpro.py lines 335–369): an empty glob
result is a hard `FileNotFoundError`; otherwise every row's pairs are
handed to `assign_gene` in order. -/
def get_RGI (classSel : List (Abx × String)) (files : List RGIFile) (s : DHState) :
    Except LoadError DHState :=
  if files.isEmpty then .error .noFilesFound
  else (files.flatMap (rgiAssigns classSel)).foldlM applyAssign s

/-- One amrfinder row: the `Gene symbol` and the `Subclass` cell, `none`
when missing (`isna`); capitalisation of the subclass text is modelled
as already canonical. -/
structure AmrfinderRow where
  geneSymbol : Gene
  subclass : Option Abx

/-- One amrfinder report file: isolate ID from the file name and its
rows. -/
structure AmrfinderFile where
  isolate : Isolate
  rows : List AmrfinderRow

/-- The antibiotic–gene pairs one amrfinder file contributes: rows
without a subclass are dropped (src/abxrxpro.py line 385), and each
remaining row keys its gene symbol by its subclass directly
(lines 389–390). -/
def amrfinderAssigns (f : AmrfinderFile) : List (Isolate × Abx × Gene) :=
  f.rows.flatMap (fun r =>
    match r.subclass with
    | none => []
    | some sc => [(f.isolate, sc, r.geneSymbol)])

/-- `DataHandler.get_amrfinder` (src/abxrxpro.py lines 372–393): an
empty glob result is a hard `FileNotFoundError`; otherwise every row's
pairs are handed to `assign_gene` in order. -/
def get_amrfinder (files : List AmrfinderFile) (s : DHState) : Except LoadError DHState :=
  if files.isEmpty then .error .noFilesFound
  else (files.flatMap amrfinderAssigns).foldlM applyAssign s

/-- The genotype-loading dispatch of `DataHandler.__call__`
(src/abxrxpro.py lines 211–221): each of the three sources is loaded
exactly when the user requested it (`if RGI: ...` etc.), in the fixed
order RGI, staramr, amrfinder; `none` models a source not requested. -/
def loadGenotypes (classSel : List (Abx × String))
    (RGIfiles : Option (List RGIFile)) (staramrFiles : Option (List StaramrFile))
    (amrfinderFiles : Option (List AmrfinderFile)) (s : DHState) :
    Except LoadError DHState := do
  let s ← match RGIfiles with
    | none => pure s
    | some fs => get_RGI classSel fs s
  let s ← match staramrFiles with
    | none => pure s
    | some fs => get_staramr fs s
  match amrfinderFiles with
  | none => pure s
  | some fs => get_amrfinder fs s

/-- The synthetic fusion map of the round-trip property (spec §8):
isolate1 carries geneA twice and geneB once under AntibioticX, isolate2
carries geneB. -/
def rtData : FusedData :=
  [("isolate1", [("AntibioticX", ["geneA", "geneA", "geneB"])]),
   ("isolate2", [("AntibioticX", ["geneB"])])]

/-- The `abxcorr` instance of the round-trip property: the synthetic
fusion map, a phenotype table with the single column AntibioticX
(isolate1 R, isolate2 S), and no configured drug classes (the synthetic
AntibioticX is not a class name). -/
def rtCorr : AbxCorr :=
  ⟨rtData, ["AntibioticX"],
   fun _ i => if i == "isolate1" then .R else .S, []⟩

/-- Two isolates with disjoint gene sets under a shared key: the input
on which the correlation pass corrupts the fused data. -/
def mutData : FusedData :=
  [("isolate1", [("AntibioticX", ["geneA"])]),
   ("isolate2", [("AntibioticX", ["geneC"])])]

/-- The `abxcorr` instance around `mutData`. -/
def mutCorr : AbxCorr :=
  ⟨mutData, ["AntibioticX"],
   fun _ i => if i == "isolate1" then .R else .S, []⟩

/-- Two genes discovered under the shared key in isolate1, a third in
isolate2: the input on which the within-key output order is examined. -/
def ordData : FusedData :=
  [("isolate1", [("AntibioticX", ["geneA", "geneB"])]),
   ("isolate2", [("AntibioticX", ["geneC"])])]

/-- The `abxcorr` instance around `ordData`. -/
def ordCorr : AbxCorr :=
  ⟨ordData, ["AntibioticX"],
   fun _ i => if i == "isolate1" then .R else .S, []⟩

/-- A legitimate alternative iteration order for a Python set: same
elements, no duplicates, reversed first-appearance order. -/
def revSetIter (l : List Gene) : List Gene := (dedupFirst l).reverse

/-- The `abxcorr` state after one correlation pass over `mutData`: the
same phenotype table and class map, but the fused data as the pass left
it. -/
def mutCorrAfter : AbxCorr := { mutCorr with data := mutateData mutData }

/-- The fusion invariant of claim C7: every gene recorded under an
isolate's key also has that isolate recorded in its gene-frequency
entry. -/
def freqInv (s : DHState) : Prop :=
  ∀ I m, (I, m) ∈ s.data → ∀ k gs, (k, gs) ∈ m → ∀ g ∈ gs,
    ∃ iss, s.GeneFrequencies.lookup g = some iss ∧ I ∈ iss

/-- A fused map with a duplicated gene under a key for one isolate and
no genotype entry for the other: exercises the 0/1 indicator edge
cases. -/
def dupData : FusedData := [("iso1", [("KeyX", ["geneD", "geneD"])]), ("iso2", [])]

/-- An `abxcorr` instance whose class map sends two antibiotics, both
phenotype columns, to the drug class "Penicillins". -/
def classCorr : AbxCorr :=
  ⟨[], ["Ampicillin", "Amoxicillin"], fun _ _ => .S,
   [("Ampicillin", "Penicillins"), ("Amoxicillin", "Penicillins")]⟩

/-- The fusion state after one `assign_gene` call on a fresh
single-isolate handler. -/
def oneCallState : DHState :=
  ⟨[("iso1", [("AbxQ", ["geneZ"])])], [("geneZ", ["iso1"])]⟩

lemma gensFor_cons (p : Abx × List Gene) (L : List (Abx × List Gene)) (k : Abx) :
    gensFor (p :: L) k = (if p.1 == k then p.2 else []) ++ gensFor L k := by
  rw [gensFor, List.filter_cons]
  split <;> simp_all [gensFor]

lemma mem_of_mem_dedupFirst {a : Gene} : ∀ {l : List Gene}, a ∈ dedupFirst l → a ∈ l
  | [], h => h
  | b :: l, h => by
    rw [dedupFirst] at h
    rcases List.mem_cons.mp h with h | h
    · exact h ▸ List.mem_cons_self b l
    · exact List.mem_cons_of_mem b (mem_of_mem_dedupFirst (List.mem_filter.mp h).1)

lemma any_key_map_bump (acc : List (Abx × List Gene)) (a : Abx)
    (gs : List Gene) (k : Abx) :
    ((acc.map (fun q => if q.1 == a then (q.1, q.2 ++ gs) else q)).any
        (fun q => q.1 == k)) = acc.any (fun q => q.1 == k) := by
  rw [List.any_map]
  congr 1
  funext q
  by_cases h : q.1 == a <;> simp [h, Function.comp]

lemma foldl_insPair : ∀ (L : List (Abx × List Gene)) (acc : List (Abx × List Gene)),
    L.foldl insPair acc =
      acc.map (fun q => (q.1, q.2 ++ gensFor L q.1))
      ++ ((dedupFirst (L.map Prod.fst)).filter
            (fun k => !(acc.any (fun q => q.1 == k)))).map (fun k => (k, gensFor L k))
  | [], acc => by
      simp [gensFor, dedupFirst]
  | p :: L, acc => by
      rw [List.foldl_cons, foldl_insPair L (insPair acc p), insPair]
      by_cases h : acc.any (fun q => q.1 == p.1)
      · rw [if_pos h]
        simp only [List.map_cons, dedupFirst, List.filter_cons]
        have hp : (!(acc.any (fun q => q.1 == p.1))) = false := by simp [h]
        rw [hp]
        simp only [Bool.false_eq_true, if_false, List.filter_filter]
        have hfe : (fun k => (!(acc.any (fun q => q.1 == k))) && (k != p.1))
            = (fun k => !(acc.any (fun q => q.1 == k))) := by
          funext k
          by_cases hk : k = p.1
          · subst hk; simp [h]
          · simp [hk]
        rw [hfe]
        congr 1
        · rw [List.map_map]
          apply List.map_congr_left
          intro q _
          by_cases hq : q.1 = p.1
          · simp [Function.comp, hq, gensFor_cons, List.append_assoc]
          · have h1 : (q.1 == p.1) = false := by simpa using hq
            have h2 : (p.1 == q.1) = false := by
              by_cases hc : p.1 = q.1
              · exact absurd hc.symm hq
              · simpa using hc
            simp [Function.comp, h1, h2, gensFor_cons]
        · simp only [any_key_map_bump]
          apply List.map_congr_left
          intro k hk
          have hk2 : (!(acc.any (fun q => q.1 == k))) = true := (List.mem_filter.mp hk).2
          have hkp : (p.1 == k) = false := by
            by_cases hc : p.1 = k
            · subst hc; rw [h] at hk2; simp at hk2
            · simpa using hc
          rw [gensFor_cons, hkp]
          simp
      · rw [if_neg h]
        have hb : acc.any (fun q => q.1 == p.1) = false := by
          cases hB : acc.any (fun q => q.1 == p.1) with
          | false => rfl
          | true => exact absurd hB h
        simp only [List.map_append, List.map_cons, List.map_nil, dedupFirst,
          List.filter_cons, List.append_assoc]
        have hp : (!(acc.any (fun q => q.1 == p.1))) = true := by simp [hb]
        rw [hp]
        simp only [if_true, List.map_cons, List.filter_filter, List.singleton_append]
        have hanyf : ∀ q ∈ acc, (q.1 == p.1) = false := by
          intro q hq
          by_cases hc : q.1 = p.1
          · exact absurd (List.any_eq_true.mpr ⟨q, hq, by simp [hc]⟩) h
          · simpa using hc
        congr 1
        · apply List.map_congr_left
          intro q hq
          rw [gensFor_cons]
          have h2 : (p.1 == q.1) = false := by
            by_cases hc : p.1 = q.1
            · have h3 := hanyf q hq
              rw [hc] at h3
              simp at h3
            · simpa using hc
          rw [h2]
          simp
        · congr 1
          · rw [gensFor_cons]
            simp
          · have hfe2 : (fun k => !((acc.any (fun q => q.1 == k)) || (p.1 == k)))
                = (fun k => (!(acc.any (fun q => q.1 == k))) && (k != p.1)) := by
              funext k
              by_cases hc : p.1 = k
              · subst hc; simp
              · have h1 : (p.1 == k) = false := by simpa using hc
                have h2 : (k != p.1) = true := by
                  simp [bne]
                  exact fun hc2 => hc hc2.symm
                simp [h1, h2]
            simp only [List.any_append, List.any_cons, List.any_nil, Bool.or_false, hfe2]
            apply List.map_congr_left
            intro k hk
            have hk2 := (List.mem_filter.mp hk).2
            have hkp : (p.1 == k) = false := by
              by_cases hc : p.1 = k
              · subst hc
                simp [bne] at hk2
              · simpa using hc
            rw [gensFor_cons, hkp]
            simp

lemma collectPairs_eq (data : FusedData) :
    collectPairs data = (discoveryKeys data).map (fun k => (k, allGenes data k)) := by
  rw [collectPairs, foldl_insPair]
  simp [discoveryKeys, allGenes]

/-- Claim C1: the bucket classification is a pure, total function of
the coefficient whose bucket boundaries are the closed intervals of the
table in spec §4.2: `x ≥ 0.70` is very strong positive, `0.40 ≤ x ≤
0.69` strong positive, `0.30 ≤ x ≤ 0.39` moderate positive, `0.20 ≤ x ≤
0.29` weak positive, `0.01 ≤ x ≤ 0.19` and `-0.19 ≤ x ≤ -0.01`
negligible, `-0.29 ≤ x ≤ -0.20` weak negative, `-0.39 ≤ x ≤ -0.30`
moderate negative, `-0.69 ≤ x ≤ -0.40` strong negative and `x ≤ -0.70`
very strong negative; in particular exactly 0.40 is strong positive and
exactly 0.39 moderate positive (witness). -/
theorem strength_bucket_table (x : ℚ) :
    (x ≥ 0.7 → bucketOf (strength x) = Bucket.veryStrongPos)
  ∧    (0.4 ≤ x ∧ x ≤ 0.69 → bucketOf (strength x) = Bucket.strongPos)
  ∧    (0.3 ≤ x ∧ x ≤ 0.39 → bucketOf (strength x) = Bucket.modPos)
  ∧    (0.2 ≤ x ∧ x ≤ 0.29 → bucketOf (strength x) = Bucket.weakPos)
  ∧    (0.01 ≤ x ∧ x ≤ 0.19 → bucketOf (strength x) = Bucket.negligible)
  ∧    (-0.19 ≤ x ∧ x ≤ -0.01 → bucketOf (strength x) = Bucket.negligible)
  ∧    (-0.29 ≤ x ∧ x ≤ -0.2 → bucketOf (strength x) = Bucket.weakNeg)
  ∧    (-0.39 ≤ x ∧ x ≤ -0.3 → bucketOf (strength x) = Bucket.modNeg)
  ∧    (-0.69 ≤ x ∧ x ≤ -0.4 → bucketOf (strength x) = Bucket.strongNeg)
  ∧    (x ≤ -0.7 → bucketOf (strength x) = Bucket.veryStrongNeg) := by
  refine ⟨?_, ?_, ?_, ?_, ?_, ?_, ?_, ?_, ?_, ?_⟩
  · intro h1
    simp only [strength]
    rw [if_pos (show x ≥ 0.7 by linarith)]
    rfl
  · rintro ⟨h1, h2⟩
    simp only [strength]
    rw [if_neg (by intro hc; linarith),
      if_pos (show 0.69 ≥ x ∧ x ≥ 0.4 by constructor <;> linarith)]
    rfl
  · rintro ⟨h1, h2⟩
    simp only [strength]
    rw [if_neg (by intro hc; linarith),
      if_neg (by rintro ⟨a, b⟩; linarith),
      if_pos (show 0.39 ≥ x ∧ x ≥ 0.3 by constructor <;> linarith)]
    rfl
  · rintro ⟨h1, h2⟩
    simp only [strength]
    rw [if_neg (by intro hc; linarith),
      if_neg (by rintro ⟨a, b⟩; linarith),
      if_neg (by rintro ⟨a, b⟩; linarith),
      if_pos (show 0.29 ≥ x ∧ x ≥ 0.2 by constructor <;> linarith)]
    rfl
  · rintro ⟨h1, h2⟩
    simp only [strength]
    rw [if_neg (by intro hc; linarith),
      if_neg (by rintro ⟨a, b⟩; linarith),
      if_neg (by rintro ⟨a, b⟩; linarith),
      if_neg (by rintro ⟨a, b⟩; linarith),
      if_pos (show 0.19 ≥ x ∧ x ≥ 0.01 by constructor <;> linarith)]
    rfl
  · rintro ⟨h1, h2⟩
    simp only [strength]
    rw [if_neg (by intro hc; linarith),
      if_neg (by rintro ⟨a, b⟩; linarith),
      if_neg (by rintro ⟨a, b⟩; linarith),
      if_neg (by rintro ⟨a, b⟩; linarith),
      if_neg (by rintro ⟨a, b⟩; linarith),
      if_pos (show -0.01 ≥ x ∧ x ≥ -0.19 by constructor <;> linarith)]
    rfl
  · rintro ⟨h1, h2⟩
    simp only [strength]
    rw [if_neg (by intro hc; linarith),
      if_neg (by rintro ⟨a, b⟩; linarith),
      if_neg (by rintro ⟨a, b⟩; linarith),
      if_neg (by rintro ⟨a, b⟩; linarith),
      if_neg (by rintro ⟨a, b⟩; linarith),
      if_neg (by rintro ⟨a, b⟩; linarith),
      if_pos (show -0.2 ≥ x ∧ x ≥ -0.29 by constructor <;> linarith)]
    rfl
  · rintro ⟨h1, h2⟩
    simp only [strength]
    rw [if_neg (by intro hc; linarith),
      if_neg (by rintro ⟨a, b⟩; linarith),
      if_neg (by rintro ⟨a, b⟩; linarith),
      if_neg (by rintro ⟨a, b⟩; linarith),
      if_neg (by rintro ⟨a, b⟩; linarith),
      if_neg (by rintro ⟨a, b⟩; linarith),
      if_neg (by rintro ⟨a, b⟩; linarith),
      if_pos (show -0.3 ≥ x ∧ x ≥ -0.39 by constructor <;> linarith)]
    rfl
  · rintro ⟨h1, h2⟩
    simp only [strength]
    rw [if_neg (by intro hc; linarith),
      if_neg (by rintro ⟨a, b⟩; linarith),
      if_neg (by rintro ⟨a, b⟩; linarith),
      if_neg (by rintro ⟨a, b⟩; linarith),
      if_neg (by rintro ⟨a, b⟩; linarith),
      if_neg (by rintro ⟨a, b⟩; linarith),
      if_neg (by rintro ⟨a, b⟩; linarith),
      if_neg (by rintro ⟨a, b⟩; linarith),
      if_pos (show -0.4 ≥ x ∧ x ≥ -0.69 by constructor <;> linarith)]
    rfl
  · intro h1
    simp only [strength]
    rw [if_neg (by intro hc; linarith),
      if_neg (by rintro ⟨a, b⟩; linarith),
      if_neg (by rintro ⟨a, b⟩; linarith),
      if_neg (by rintro ⟨a, b⟩; linarith),
      if_neg (by rintro ⟨a, b⟩; linarith),
      if_neg (by rintro ⟨a, b⟩; linarith),
      if_neg (by rintro ⟨a, b⟩; linarith),
      if_neg (by rintro ⟨a, b⟩; linarith),
      if_neg (by rintro ⟨a, b⟩; linarith),
      if_pos (show -0.7 ≥ x by linarith)]
    rfl

lemma strength_gap_noRel (x : ℚ)
    (hx : (0.19 < x ∧ x < 0.2) ∨ (0.29 < x ∧ x < 0.3) ∨ (0.39 < x ∧ x < 0.4) ∨ (0.69 < x ∧ x < 0.7) ∨ (-0.2 < x ∧ x < -0.19) ∨ (-0.3 < x ∧ x < -0.29) ∨ (-0.4 < x ∧ x < -0.39) ∨ (-0.7 < x ∧ x < -0.69) ∨ (-0.01 < x ∧ x < 0.01)) :
    strength x = "No relationship" := by
  have hall : (¬(x ≥ 0.7)) ∧ (¬(0.69 ≥ x ∧ x ≥ 0.4)) ∧ (¬(0.39 ≥ x ∧ x ≥ 0.3)) ∧ (¬(0.29 ≥ x ∧ x ≥ 0.2)) ∧ (¬(0.19 ≥ x ∧ x ≥ 0.01)) ∧ (¬(-0.01 ≥ x ∧ x ≥ -0.19)) ∧ (¬(-0.2 ≥ x ∧ x ≥ -0.29)) ∧ (¬(-0.3 ≥ x ∧ x ≥ -0.39)) ∧ (¬(-0.4 ≥ x ∧ x ≥ -0.69)) ∧ (¬(-0.7 ≥ x)) := by
    rcases hx with ⟨h1, h2⟩ | ⟨h1, h2⟩ | ⟨h1, h2⟩ | ⟨h1, h2⟩ | ⟨h1, h2⟩ | ⟨h1, h2⟩ | ⟨h1, h2⟩ | ⟨h1, h2⟩ | ⟨h1, h2⟩ <;>
      refine ⟨?_, ?_, ?_, ?_, ?_, ?_, ?_, ?_, ?_, ?_⟩ <;>
      · intro hc
        linarith
  obtain ⟨n1, n2, n3, n4, n5, n6, n7, n8, n9, n10⟩ := hall
  simp only [strength]
  rw [if_neg n1, if_neg n2, if_neg n3, if_neg n4, if_neg n5, if_neg n6, if_neg n7, if_neg n8, if_neg n9, if_neg n10]

lemma mem_runCorr (f : List Gene → List Gene) (c : AbxCorr) (r : CorrRecord)
    (hr : r ∈ runCorr f c) :
    r.2.2.2 = strengthO r.2.2.1 ∧ r.2.2.2 ≠ "No relationship" := by
  rw [runCorr] at hr
  simp only [List.mem_flatMap] at hr
  obtain ⟨kg, hkg, g, hg, hr⟩ := hr
  rw [emittedRecords] at hr
  have h2 := (List.mem_filter.mp hr).2
  have h1 := (List.mem_filter.mp hr).1
  rw [computedRecords] at h1
  simp only [List.mem_map] at h1
  obtain ⟨b, hb, heq⟩ := h1
  subst heq
  refine ⟨rfl, ?_⟩
  intro hcon
  rw [hcon] at h2
  simp at h2

lemma sampleMean_const (l : List ℚ) (a : ℚ) (hne : l ≠ []) (h : ∀ y ∈ l, y = a) :
    sampleMean l = a := by
  rw [sampleMean]
  have hrep := List.eq_replicate_of_mem h
  conv_lhs => rw [hrep]
  rw [List.sum_replicate, List.length_replicate, nsmul_eq_mul]
  have hn : (l.length : ℚ) ≠ 0 := by
    simpa using List.length_pos.mpr hne |>.ne'
  exact mul_div_cancel_left₀ a hn

lemma sampleVar_const (l : List ℚ) (a : ℚ) (h : ∀ y ∈ l, y = a) : sampleVar l = 0 := by
  rcases List.eq_nil_or_concat l with rfl | _
  · simp [sampleVar]
  · rw [sampleVar]
    have hne : l ≠ [] := by
      rintro rfl
      simp_all
    have hsum : (l.map (fun y => (y - sampleMean l) * (y - sampleMean l))).sum = 0 := by
      apply List.sum_eq_zero
      intro q hq
      simp only [List.mem_map] at hq
      obtain ⟨y, hy, rfl⟩ := hq
      rw [h y hy, sampleMean_const l a hne h]
      ring
    rw [hsum, zero_div]

lemma fetch_results_const_one (data : FusedData) (k : Abx) (g : Gene)
    (h : ∀ im ∈ data, genePresent im.2 k g = true) :
    ∀ q ∈ fetch_results data k g, q = 1 := by
  intro q hq
  rw [fetch_results] at hq
  simp only [List.mem_map] at hq
  obtain ⟨im, him, rfl⟩ := hq
  rw [h im him]
  simp

lemma fetch_results_const_zero (data : FusedData) (k : Abx) (g : Gene)
    (h : ∀ im ∈ data, genePresent im.2 k g = false) :
    ∀ q ∈ fetch_results data k g, q = 0 := by
  intro q hq
  rw [fetch_results] at hq
  simp only [List.mem_map] at hq
  obtain ⟨im, him, rfl⟩ := hq
  rw [h im him]
  simp

/-- Claim C2: an undefined (NaN) Pearson coefficient — in particular
for any gene-presence indicator of zero variance, i.e. a gene present
in every isolate or in none — classifies as "No relationship" and its
record is suppressed: no record of the correlation pass ever carries an
undefined coefficient or the "No relationship" label. -/
theorem nan_suppressed :
    (∀ (data : FusedData) (k : Abx) (g : Gene) (xs : List ℚ),
        ((∀ im ∈ data, genePresent im.2 k g = true) ∨
         (∀ im ∈ data, genePresent im.2 k g = false)) →
        pearson xs (fetch_results data k g) = none)
  ∧ strengthO none = "No relationship"
  ∧ (∀ (f : List Gene → List Gene) (c : AbxCorr) (r : CorrRecord),
        r ∈ runCorr f c → r.2.2.1 ≠ none ∧ r.2.2.2 ≠ "No relationship") := by
  refine ⟨?_, rfl, ?_⟩
  · intro data k g xs h
    have hv : sampleVar (fetch_results data k g) = 0 := by
      rcases h with h | h
      · exact sampleVar_const _ 1 (fetch_results_const_one data k g h)
      · exact sampleVar_const _ 0 (fetch_results_const_zero data k g h)
    rw [pearson, if_pos (Or.inr hv)]
  · intro f c r hr
    obtain ⟨hst, hne⟩ := mem_runCorr f c r hr
    refine ⟨?_, hne⟩
    intro hcon
    rw [hcon] at hst
    exact hne hst

/-- Claim C4: the gene-presence vector built for correlation is indexed
by all isolates of the fused data it reads; its entry for an isolate is
exactly 1 when gene `g` appears under key `k` for that isolate and
exactly 0 otherwise; an isolate without a genotype entry under `k`
contributes 0; and no entry ever exceeds 1, repeated occurrences
notwithstanding (every entry is 0 or 1). -/
theorem indicator_vector_correct (data : FusedData) (k : Abx) (g : Gene) :
    (fetch_results data k g).length = data.length
  ∧ (∀ (i : ℕ) (im : Isolate × GenoMap), data[i]? = some im →
        (fetch_results data k g)[i]? = some (if genePresent im.2 k g then 1 else 0))
  ∧ (∀ (i : ℕ) (im : Isolate × GenoMap), data[i]? = some im → im.2.lookup k = none →
        (fetch_results data k g)[i]? = some 0)
  ∧ (∀ q ∈ fetch_results data k g, q = 0 ∨ q = 1) := by
  refine ⟨by simp [fetch_results], ?_, ?_, ?_⟩
  · intro i im him
    rw [fetch_results, List.getElem?_map, him]
    rfl
  · intro i im him hlk
    rw [fetch_results, List.getElem?_map, him]
    simp [genePresent, hlk]
  · intro q hq
    rw [fetch_results] at hq
    simp only [List.mem_map] at hq
    obtain ⟨im, him, rfl⟩ := hq
    by_cases h : genePresent im.2 k g <;> simp [h]

/-- Claim C5: a key that is a recognized drug class resolves to exactly
the antibiotics mapping to that class that are phenotype-table columns,
and the pass computes one correlation record per resolved antibiotic
per gene, each against that antibiotic's own phenotype column; any
other key is used as the single column and yields one computed record
exactly when it is a phenotype column.  (Stated of the computed
records; C2/C10 govern the later no-relationship suppression.) -/
theorem class_key_resolution (c : AbxCorr) (data' : FusedData) (K : Abx) (g : Gene) :
    ((c.class_antibiotic.map Prod.snd).contains K = true →
       (∀ b, b ∈ get_abx c g K ↔ ((b, K) ∈ c.class_antibiotic ∧ b ∈ c.phenCols))
       ∧ computedRecords c data' K g = (get_abx c g K).map (fun b =>
           (g, b, pearson (phenColumn c (data'.map Prod.fst) b) (fetch_results data' K g),
            strengthO (pearson (phenColumn c (data'.map Prod.fst) b)
              (fetch_results data' K g))))
       ∧ (computedRecords c data' K g).length = (get_abx c g K).length)
  ∧ ((c.class_antibiotic.map Prod.snd).contains K = false →
       get_abx c g K = [K]
       ∧ computedRecords c data' K g = (if K ∈ c.phenCols then
           [(g, K, pearson (phenColumn c (data'.map Prod.fst) K) (fetch_results data' K g),
             strengthO (pearson (phenColumn c (data'.map Prod.fst) K)
               (fetch_results data' K g)))]
          else [])) := by
  constructor
  · intro hK
    have hmem : ∀ b, b ∈ get_abx c g K ↔ ((b, K) ∈ c.class_antibiotic ∧ b ∈ c.phenCols) := by
      intro b
      rw [get_abx, if_pos hK]
      simp only [List.mem_map, List.mem_filter, Bool.and_eq_true, beq_iff_eq]
      constructor
      · rintro ⟨p, ⟨hp, hp2, hp3⟩, rfl⟩
        refine ⟨?_, by simpa using hp3⟩
        have : p = (p.1, K) := by
          rw [← hp2]
        rw [← this]
        exact hp
      · rintro ⟨hbK, hbP⟩
        exact ⟨(b, K), ⟨hbK, rfl, by simpa using hbP⟩, rfl⟩
    have hsub : ∀ b ∈ get_abx c g K, c.phenCols.contains b = true := by
      intro b hb
      have := (hmem b).mp hb
      simpa using this.2
    have hfilter : (get_abx c g K).filter (fun b => c.phenCols.contains b)
        = get_abx c g K := List.filter_eq_self.mpr hsub
    refine ⟨hmem, ?_, ?_⟩
    · rw [computedRecords, hfilter]
    · rw [computedRecords, hfilter, List.length_map]
  · intro hK
    have habx : get_abx c g K = [K] := by
      rw [get_abx, if_neg (by rw [hK]; simp)]
    refine ⟨habx, ?_⟩
    rw [computedRecords, habx]
    by_cases hKP : K ∈ c.phenCols
    · rw [if_pos hKP, List.filter_cons, if_pos (by simpa using hKP)]
      simp
    · rw [if_neg hKP, List.filter_cons, if_neg (by simpa using hKP)]
      simp

/-- Claim C9, amended: the output is one record sequence grouped by
antibiotic-or-class key in discovery order (first appearance while
scanning isolates); within a key the genes follow the iteration order
of the Python set built from the accumulated gene list — an unspecified
order that need not be discovery order — and no sorting is applied.
The theorem holds for every set-iteration order `f`. -/
theorem output_order_keys_discovery (f : List Gene → List Gene) (c : AbxCorr) :
    runCorr f c = (discoveryKeys c.data).flatMap (fun k =>
      (f (allGenes c.data k)).flatMap (fun g =>
        emittedRecords c (mutateData c.data) k g)) := by
  rw [runCorr]
  simp only [get_antibiotic_gene_pairs, collectPairs_eq, List.map_map, List.flatMap_map]
  rfl

/-- Claim C10: every well-defined coefficient lying strictly inside one
of the inter-bucket gaps (0.19, 0.20), (0.29, 0.30), (0.39, 0.40),
(0.69, 0.70), their negative mirrors, or the interval (-0.01, 0.01)
including exactly 0, classifies as "No relationship", and no record of
the correlation pass ever carries such a coefficient. -/
theorem gap_coefficient_suppressed (x : ℚ)
    (hx : (0.19 < x ∧ x < 0.2) ∨ (0.29 < x ∧ x < 0.3) ∨ (0.39 < x ∧ x < 0.4) ∨
          (0.69 < x ∧ x < 0.7) ∨ (-0.2 < x ∧ x < -0.19) ∨ (-0.3 < x ∧ x < -0.29) ∨
          (-0.4 < x ∧ x < -0.39) ∨ (-0.7 < x ∧ x < -0.69) ∨ (-0.01 < x ∧ x < 0.01)) :
    strength x = "No relationship"
  ∧ (∀ (f : List Gene → List Gene) (c : AbxCorr) (r : CorrRecord),
      r ∈ runCorr f c → r.2.2.1 ≠ some x) := by
  have hs := strength_gap_noRel x hx
  refine ⟨hs, ?_⟩
  intro f c r hr hcon
  obtain ⟨hst, hne⟩ := mem_runCorr f c r hr
  rw [hcon] at hst
  rw [strengthO] at hst
  exact hne (hst.trans hs)

/-- Claim C8: each of the three source loaders raises the hard
no-files-found error whenever the requested source directory yields
zero matching report files (never returning silently with empty fused
results), and a source that is not requested is skipped without
error. -/
theorem empty_source_raises :
    (∀ (classSel : List (Abx × String)) (s : DHState),
        get_RGI classSel [] s = Except.error LoadError.noFilesFound)
  ∧ (∀ s : DHState, get_staramr [] s = Except.error LoadError.noFilesFound)
  ∧ (∀ s : DHState, get_amrfinder [] s = Except.error LoadError.noFilesFound)
  ∧ (∀ (classSel : List (Abx × String)) (star : Option (List StaramrFile))
        (amr : Option (List AmrfinderFile)) (s : DHState),
        loadGenotypes classSel (some []) star amr s = Except.error LoadError.noFilesFound)
  ∧ (∀ (classSel : List (Abx × String)) (s : DHState),
        loadGenotypes classSel none none none s = Except.ok s) := by
  refine ⟨fun _ _ => rfl, fun _ => rfl, fun _ => rfl, fun _ _ _ _ => rfl, fun _ _ => rfl⟩

lemma ratSqrt_mul_self (a : ℚ) (ha : 0 ≤ a) : ratSqrt (a * a) = a := by
  rw [ratSqrt, Rat.mul_self_num, Rat.mul_self_den, Int.sqrt_eq]
  rw [show a.den * a.den = a.den ^ 2 by ring, Nat.sqrt_eq']
  rw [Int.natAbs_of_nonneg (Rat.num_nonneg.mpr ha)]
  exact Rat.num_div_den a

lemma pearson_10_10 : pearson [1, 0] [1, 0] = some 1 := by
  have h : ratSqrt ((1 : ℚ)/4) = 1/2 := by
    rw [show (1 : ℚ)/4 = (1/2) * (1/2) by norm_num]
    rw [ratSqrt_mul_self _ (by norm_num)]
  norm_num [pearson, sampleVar, sampleCov, sampleMean]
  rw [h]
  norm_num

lemma pearson_10_11 : pearson [1, 0] [1, 1] = none := by
  norm_num [pearson, sampleVar, sampleCov, sampleMean]

lemma strengthO_one : strengthO (some 1) = "very strong positive relationship" := by
  rw [strengthO, strength, if_pos (by norm_num)]

lemma rt_phen : phenColumn rtCorr ((mutateData rtData).map Prod.fst) "AntibioticX"
    = [1, 0] := by decide

lemma rt_fetch_geneA : fetch_results (mutateData rtData) "AntibioticX" "geneA"
    = [1, 0] := by decide

lemma rt_fetch_geneB : fetch_results (mutateData rtData) "AntibioticX" "geneB"
    = [1, 1] := by decide

lemma rt_pearson_geneA :
    pearson (phenColumn rtCorr ((mutateData rtData).map Prod.fst) "AntibioticX")
      (fetch_results (mutateData rtData) "AntibioticX" "geneA") = some 1 := by
  rw [rt_phen, rt_fetch_geneA, pearson_10_10]

lemma rt_pearson_geneB :
    pearson (phenColumn rtCorr ((mutateData rtData).map Prod.fst) "AntibioticX")
      (fetch_results (mutateData rtData) "AntibioticX" "geneB") = none := by
  rw [rt_phen, rt_fetch_geneB, pearson_10_11]

lemma rt_emitted_geneA :
    emittedRecords rtCorr (mutateData rtData) "AntibioticX" "geneA"
      = [("geneA", "AntibioticX", some 1, "very strong positive relationship")] := by
  rw [emittedRecords, computedRecords]
  rw [show get_abx rtCorr "geneA" "AntibioticX" = ["AntibioticX"] from by decide]
  rw [show (["AntibioticX"].filter (fun b => rtCorr.phenCols.contains b))
      = ["AntibioticX"] from by decide]
  rw [List.map_singleton, rt_pearson_geneA, strengthO_one]
  rw [List.filter_cons, if_pos (by decide)]
  rfl

lemma rt_emitted_geneB :
    emittedRecords rtCorr (mutateData rtData) "AntibioticX" "geneB" = [] := by
  rw [emittedRecords, computedRecords]
  rw [show get_abx rtCorr "geneB" "AntibioticX" = ["AntibioticX"] from by decide]
  rw [show (["AntibioticX"].filter (fun b => rtCorr.phenCols.contains b))
      = ["AntibioticX"] from by decide]
  rw [List.map_singleton, rt_pearson_geneB]
  rfl

/-- Claim C3: on the fixed synthetic fusion map — isolate1 carrying
geneA, geneA, geneB under AntibioticX and isolate2 carrying geneB under
AntibioticX — with phenotype R for isolate1 and S for isolate2, the
correlation pass produces for
geneA the indicator vector [1, 0], the coefficient 1.0 and the "very
strong positive relationship" classification, and for geneB (indicator
[1, 1], zero variance) a suppressed result that is never emitted — for
either possible iteration order of the gene set. -/
theorem roundtrip_synthetic (f : List Gene → List Gene)
    (hf : f ["geneA", "geneA", "geneB", "geneB"] = ["geneA", "geneB"] ∨
          f ["geneA", "geneA", "geneB", "geneB"] = ["geneB", "geneA"]) :
    fetch_results (mutateData rtData) "AntibioticX" "geneA" = [1, 0]
  ∧ pearson (phenColumn rtCorr ((mutateData rtData).map Prod.fst) "AntibioticX")
      (fetch_results (mutateData rtData) "AntibioticX" "geneA") = some 1
  ∧ strengthO (some 1) = "very strong positive relationship"
  ∧ fetch_results (mutateData rtData) "AntibioticX" "geneB" = [1, 1]
  ∧ pearson (phenColumn rtCorr ((mutateData rtData).map Prod.fst) "AntibioticX")
      (fetch_results (mutateData rtData) "AntibioticX" "geneB") = none
  ∧ runCorr f rtCorr =
      [("geneA", "AntibioticX", some 1, "very strong positive relationship")] := by
  refine ⟨rt_fetch_geneA, rt_pearson_geneA, strengthO_one, rt_fetch_geneB,
    rt_pearson_geneB, ?_⟩
  rw [runCorr]
  simp only [get_antibiotic_gene_pairs]
  rw [show rtCorr.data = rtData from rfl]
  rw [show collectPairs rtData
      = [("AntibioticX", ["geneA", "geneA", "geneB", "geneB"])] from by decide]
  rw [List.map_singleton]
  rcases hf with h | h <;>
    rw [h] <;>
    simp only [List.flatMap_cons, List.flatMap_nil, List.append_nil] <;>
    rw [rt_emitted_geneA, rt_emitted_geneB] <;>
    rfl

lemma emittedRecords_single_pos1 (c : AbxCorr) (data' : FusedData) (k : Abx) (g : Gene)
    (h1 : get_abx c g k = [k]) (h2 : c.phenCols.contains k = true)
    (h3 : pearson (phenColumn c (data'.map Prod.fst) k) (fetch_results data' k g)
      = some 1) :
    emittedRecords c data' k g
      = [(g, k, some 1, "very strong positive relationship")] := by
  rw [emittedRecords, computedRecords, h1, List.filter_cons, if_pos h2, List.filter_nil,
    List.map_singleton, h3, strengthO_one]
  simp

lemma emittedRecords_single_none (c : AbxCorr) (data' : FusedData) (k : Abx) (g : Gene)
    (h1 : get_abx c g k = [k]) (h2 : c.phenCols.contains k = true)
    (h3 : pearson (phenColumn c (data'.map Prod.fst) k) (fetch_results data' k g)
      = none) :
    emittedRecords c data' k g = [] := by
  rw [emittedRecords, computedRecords, h1, List.filter_cons, if_pos h2, List.filter_nil,
    List.map_singleton, h3]
  rfl


lemma mut_emitted_geneA :
    emittedRecords mutCorr (mutateData mutData) "AntibioticX" "geneA"
      = [("geneA", "AntibioticX", some 1, "very strong positive relationship")] := by
  apply emittedRecords_single_pos1 _ _ _ _ (by decide) (by decide)
  rw [show phenColumn mutCorr ((mutateData mutData).map Prod.fst) "AntibioticX"
      = [1, 0] from by decide]
  rw [show fetch_results (mutateData mutData) "AntibioticX" "geneA" = [1, 0] from by decide]
  exact pearson_10_10

lemma mut_emitted_geneC :
    emittedRecords mutCorr (mutateData mutData) "AntibioticX" "geneC" = [] := by
  apply emittedRecords_single_none _ _ _ _ (by decide) (by decide)
  rw [show phenColumn mutCorr ((mutateData mutData).map Prod.fst) "AntibioticX"
      = [1, 0] from by decide]
  rw [show fetch_results (mutateData mutData) "AntibioticX" "geneC" = [1, 1] from by decide]
  exact pearson_10_11

lemma mut2_emitted_geneA :
    emittedRecords mutCorrAfter
      (mutateData (mutateData mutData)) "AntibioticX" "geneA"
      = [("geneA", "AntibioticX", some 1, "very strong positive relationship")] := by
  apply emittedRecords_single_pos1 _ _ _ _ (by decide) (by decide)
  rw [show phenColumn mutCorrAfter
      ((mutateData (mutateData mutData)).map Prod.fst) "AntibioticX" = [1, 0] from by decide]
  rw [show fetch_results (mutateData (mutateData mutData)) "AntibioticX" "geneA"
      = [1, 0] from by decide]
  exact pearson_10_10

lemma mut2_emitted_geneC :
    emittedRecords mutCorrAfter
      (mutateData (mutateData mutData)) "AntibioticX" "geneC" = [] := by
  apply emittedRecords_single_none _ _ _ _ (by decide) (by decide)
  rw [show phenColumn mutCorrAfter
      ((mutateData (mutateData mutData)).map Prod.fst) "AntibioticX" = [1, 0] from by decide]
  rw [show fetch_results (mutateData (mutateData mutData)) "AntibioticX" "geneC"
      = [1, 1] from by decide]
  exact pearson_10_11

/-- Claim C6, code bug: the correlation pass does NOT treat the fused
genotype structure as read-only.  `antibiotic_gene_pair[antibiotic] +=
genes` (src/abxgenecorr.py line 60) extends, through the alias stored
by line 62, the first holding isolate's gene list in place: on
`mutData` the pass rewrites isolate1's entry to ["geneA", "geneC"],
and isolate1's indicator for geneC flips from 0 to 1.  The printed
output of a second pass over the corrupted data happens to coincide
with the first pass's output. -/
theorem correlation_pass_mutates_data :
    mutateData mutData =
      [("isolate1", [("AntibioticX", ["geneA", "geneC"])]),
       ("isolate2", [("AntibioticX", ["geneC"])])]
  ∧ (get_antibiotic_gene_pairs dedupFirst mutData).2 ≠ mutData
  ∧ fetch_results mutData "AntibioticX" "geneC" = [0, 1]
  ∧ fetch_results (mutateData mutData) "AntibioticX" "geneC" = [1, 1]
  ∧ runCorr dedupFirst mutCorrAfter = runCorr dedupFirst mutCorr := by
  refine ⟨by decide, by decide, by decide, by decide, ?_⟩
  have h1 : runCorr dedupFirst mutCorr
      = [("geneA", "AntibioticX", some 1, "very strong positive relationship")] := by
    rw [runCorr]
    simp only [get_antibiotic_gene_pairs]
    rw [show mutCorr.data = mutData from rfl]
    rw [show collectPairs mutData = [("AntibioticX", ["geneA", "geneC"])] from by decide]
    rw [List.map_singleton]
    rw [show dedupFirst ["geneA", "geneC"] = ["geneA", "geneC"] from by rfl]
    simp only [List.flatMap_cons, List.flatMap_nil, List.append_nil]
    rw [mut_emitted_geneA, mut_emitted_geneC]
    rfl
  have h2 : runCorr dedupFirst mutCorrAfter
      = [("geneA", "AntibioticX", some 1, "very strong positive relationship")] := by
    rw [runCorr]
    simp only [get_antibiotic_gene_pairs]
    rw [show mutCorrAfter.data = mutateData mutData from rfl]
    rw [show collectPairs (mutateData mutData)
        = [("AntibioticX", ["geneA", "geneC", "geneC"])] from by decide]
    rw [List.map_singleton]
    rw [show dedupFirst ["geneA", "geneC", "geneC"] = ["geneA", "geneC"] from by rfl]
    simp only [List.flatMap_cons, List.flatMap_nil, List.append_nil]
    rw [mut2_emitted_geneA, mut2_emitted_geneC]
    rfl
  rw [h1, h2]

lemma ord_emitted_geneA :
    emittedRecords ordCorr (mutateData ordData) "AntibioticX" "geneA"
      = [("geneA", "AntibioticX", some 1, "very strong positive relationship")] := by
  apply emittedRecords_single_pos1 _ _ _ _ (by decide) (by decide)
  rw [show phenColumn ordCorr ((mutateData ordData).map Prod.fst) "AntibioticX"
      = [1, 0] from by decide]
  rw [show fetch_results (mutateData ordData) "AntibioticX" "geneA" = [1, 0] from by decide]
  exact pearson_10_10

lemma ord_emitted_geneB :
    emittedRecords ordCorr (mutateData ordData) "AntibioticX" "geneB"
      = [("geneB", "AntibioticX", some 1, "very strong positive relationship")] := by
  apply emittedRecords_single_pos1 _ _ _ _ (by decide) (by decide)
  rw [show phenColumn ordCorr ((mutateData ordData).map Prod.fst) "AntibioticX"
      = [1, 0] from by decide]
  rw [show fetch_results (mutateData ordData) "AntibioticX" "geneB" = [1, 0] from by decide]
  exact pearson_10_10

lemma ord_emitted_geneC :
    emittedRecords ordCorr (mutateData ordData) "AntibioticX" "geneC" = [] := by
  apply emittedRecords_single_none _ _ _ _ (by decide) (by decide)
  rw [show phenColumn ordCorr ((mutateData ordData).map Prod.fst) "AntibioticX"
      = [1, 0] from by decide]
  rw [show fetch_results (mutateData ordData) "AntibioticX" "geneC" = [1, 1] from by decide]
  exact pearson_10_11

/-- Claim C9, counterexample: under the legitimate set-iteration order
`revSetIter` the pass emits the genes of the single key as
[geneB, geneA], while the claim's discovery order dictates
[geneA, geneB]; the two outputs differ, so the within-key output order
is not the discovery order of the genes. -/
theorem within_key_order_not_discovery :
    (runCorr revSetIter ordCorr).map (fun r => r.1) = ["geneB", "geneA"]
  ∧ (claimOrderedOutput ordCorr).map (fun r => r.1) = ["geneA", "geneB"]
  ∧ runCorr revSetIter ordCorr ≠ claimOrderedOutput ordCorr := by
  have hrun : runCorr revSetIter ordCorr
      = [("geneB", "AntibioticX", some 1, "very strong positive relationship"),
         ("geneA", "AntibioticX", some 1, "very strong positive relationship")] := by
    rw [runCorr]
    simp only [get_antibiotic_gene_pairs]
    rw [show ordCorr.data = ordData from rfl]
    rw [show collectPairs ordData
        = [("AntibioticX", ["geneA", "geneB", "geneC"])] from by decide]
    rw [List.map_singleton]
    rw [show revSetIter ["geneA", "geneB", "geneC"]
        = ["geneC", "geneB", "geneA"] from by rfl]
    simp only [List.flatMap_cons, List.flatMap_nil, List.append_nil]
    rw [ord_emitted_geneA, ord_emitted_geneB, ord_emitted_geneC]
    rfl
  have hclaim : claimOrderedOutput ordCorr
      = [("geneA", "AntibioticX", some 1, "very strong positive relationship"),
         ("geneB", "AntibioticX", some 1, "very strong positive relationship")] := by
    rw [claimOrderedOutput]
    rw [show ordCorr.data = ordData from rfl]
    rw [show discoveryKeys ordData = ["AntibioticX"] from by rfl]
    simp only [List.flatMap_cons, List.flatMap_nil, List.append_nil]
    rw [show dedupFirst (allGenes ordData "AntibioticX")
        = ["geneA", "geneB", "geneC"] from by rfl]
    simp only [List.flatMap_cons, List.flatMap_nil, List.append_nil]
    rw [ord_emitted_geneA, ord_emitted_geneB, ord_emitted_geneC]
    rfl
  refine ⟨by rw [hrun]; rfl, by rw [hclaim]; rfl, by rw [hrun, hclaim]; decide⟩

lemma lookup_mem {β : Type} {l : List (String × β)} {a : String} {b : β}
    (h : l.lookup a = some b) : (a, b) ∈ l := by
  obtain ⟨l₁, l₂, rfl, -⟩ := List.lookup_eq_some_iff.mp h
  simp

lemma lookup_map_bump {α : Type} (l : List (String × List α)) (key : String) (v : α)
    (x : String) :
    (l.map (fun p => if p.1 == key then (p.1, p.2 ++ [v]) else p)).lookup x
      = if x == key then (l.lookup x).map (fun gs => gs ++ [v]) else l.lookup x := by
  induction l with
  | nil => by_cases h : x = key <;> simp [h]
  | cons p l ih =>
    obtain ⟨k, w⟩ := p
    by_cases hk : k = key <;> by_cases hx : x = k
    · subst hk
      obtain rfl := hx
      simp [List.lookup_cons]
    · subst hk
      simp only [List.map_cons]
      rw [if_pos (by simp : ((k, w).1 == k) = true)]
      rw [List.lookup_cons, List.lookup_cons, ih, beq_false_of_ne hx]
    · obtain rfl := hx
      have hxkey : x ≠ key := hk
      simp only [List.map_cons]
      rw [if_neg (by simpa using hk : ¬((x, w).1 == key) = true)]
      rw [List.lookup_cons, List.lookup_cons, beq_self_eq_true, beq_false_of_ne hxkey]
      simp
    · simp only [List.map_cons]
      rw [if_neg (by simpa using hk : ¬((k, w).1 == key) = true)]
      rw [List.lookup_cons, List.lookup_cons, ih, beq_false_of_ne hx]

lemma any_key_false_lookup_none {α : Type} (l : List (String × α)) (key : String)
    (h : l.any (fun p => p.1 == key) = false) : l.lookup key = none := by
  rw [List.lookup_eq_none_iff]
  intro p hp
  have := List.any_eq_false.mp h p hp
  simp only [bne_iff_ne]
  intro hc
  exact this (by simp [hc])

lemma any_key_true_lookup_isSome {α : Type} (l : List (String × α)) (key : String)
    (h : l.any (fun p => p.1 == key) = true) : ∃ w, l.lookup key = some w := by
  have h2 : (l.lookup key).isSome := by
    rw [List.lookup_isSome_iff]
    obtain ⟨p, hp, hpk⟩ := List.any_eq_true.mp h
    exact ⟨p, hp, by simpa using (eq_of_beq hpk).symm⟩
  exact Option.isSome_iff_exists.mp h2

lemma lookup_appendUnder_self {α : Type} (l : List (String × List α)) (key : String)
    (v : α) :
    (appendUnder l key v).lookup key = some (((l.lookup key).getD []) ++ [v]) := by
  rw [appendUnder]
  by_cases h : l.any (fun p => p.1 == key)
  · rw [if_pos h, lookup_map_bump, if_pos (by simp)]
    obtain ⟨w, hw⟩ := any_key_true_lookup_isSome l key h
    rw [hw]
    rfl
  · have hb : l.any (fun p => p.1 == key) = false := by
      cases hB : l.any (fun p => p.1 == key) with
      | false => rfl
      | true => exact absurd hB h
    rw [if_neg h, List.lookup_append, any_key_false_lookup_none l key hb]
    simp

lemma lookup_appendUnder_ne {α : Type} (l : List (String × List α)) (key : String)
    (v : α) (x : String) (hx : x ≠ key) :
    (appendUnder l key v).lookup x = l.lookup x := by
  rw [appendUnder]
  by_cases h : l.any (fun p => p.1 == key)
  · rw [if_pos h, lookup_map_bump, if_neg (by simpa using hx)]
  · rw [if_neg h, List.lookup_append]
    have : List.lookup x [(key, [v])] = none := by
      simp [List.lookup_cons, beq_false_of_ne hx]
    rw [this]
    cases l.lookup x <;> rfl

lemma mem_appendUnder {α : Type} (l : List (String × List α)) (key : String) (v : α)
    (k : String) (gs : List α) (h : (k, gs) ∈ appendUnder l key v) :
    (k = key ∧ gs = [v]) ∨
    (∃ gs0, (k, gs0) ∈ l ∧ (gs = gs0 ∨ (k = key ∧ gs = gs0 ++ [v]))) := by
  rw [appendUnder] at h
  by_cases ha : l.any (fun p => p.1 == key)
  · rw [if_pos ha] at h
    simp only [List.mem_map] at h
    obtain ⟨⟨q1, q2⟩, hq, heq⟩ := h
    by_cases hqk : q1 = key
    · rw [if_pos (by simpa using hqk)] at heq
      injection heq with h1 h2
      subst h1
      subst h2
      right
      exact ⟨q2, hq, Or.inr ⟨hqk, rfl⟩⟩
    · rw [if_neg (by simpa using hqk)] at heq
      injection heq with h1 h2
      subst h1
      subst h2
      right
      exact ⟨q2, hq, Or.inl rfl⟩
  · rw [if_neg ha] at h
    rcases List.mem_append.mp h with h | h
    · right
      exact ⟨gs, h, Or.inl rfl⟩
    · left
      have h2 := List.mem_singleton.mp h
      exact ⟨congrArg Prod.fst h2, congrArg Prod.snd h2⟩


lemma freq_appendUnder_lift (gf : List (Gene × List Isolate)) (g0 : Gene) (ID : Isolate)
    (G : Gene) (iss : List Isolate) (h : gf.lookup G = some iss) :
    ∃ iss', (appendUnder gf g0 ID).lookup G = some iss' ∧ iss ⊆ iss' := by
  by_cases hG : G = g0
  · subst hG
    rw [lookup_appendUnder_self, h]
    exact ⟨iss ++ [ID], rfl, fun x hx => List.mem_append_left _ hx⟩
  · rw [lookup_appendUnder_ne _ _ _ _ hG]
    exact ⟨iss, h, fun x hx => hx⟩

lemma freq_appendUnder_self_mem (gf : List (Gene × List Isolate)) (g0 : Gene)
    (ID : Isolate) :
    ∃ iss', (appendUnder gf g0 ID).lookup g0 = some iss' ∧ ID ∈ iss' := by
  rw [lookup_appendUnder_self]
  exact ⟨((gf.lookup g0).getD []) ++ [ID], rfl, List.mem_append_right _ (by simp)⟩

lemma assign_gene_preserves (s s' : DHState) (ID : Isolate) (abx : Abx) (g : Gene)
    (hinv : freqInv s) (h : assign_gene s ID abx g = some s') : freqInv s' := by
  rw [assign_gene] at h
  cases hlk : s.data.lookup ID with
  | none =>
      rw [hlk] at h
      exact absurd h (by simp)
  | some m =>
      rw [hlk] at h
      have hID_m : (ID, m) ∈ s.data := lookup_mem hlk
      simp only [Option.some.injEq] at h
      subst h
      intro I mm hImm k gs hkgs g' hg'
      simp only [List.mem_map] at hImm
      obtain ⟨⟨qI, qm⟩, hq, heq⟩ := hImm
      by_cases hqID : qI = ID
      · rw [if_pos (by simpa using hqID)] at heq
        injection heq with h1 h2
        subst h1
        subst h2
        subst hqID
        rcases mem_appendUnder m abx g k gs hkgs with ⟨hk, hgs⟩ | ⟨gs0, hgs0, hcase⟩
        · subst hgs
          obtain rfl := List.mem_singleton.mp hg'
          exact freq_appendUnder_self_mem s.GeneFrequencies g' qI
        · rcases hcase with rfl | ⟨hk, rfl⟩
          · obtain ⟨iss, hiss, hIiss⟩ := hinv qI m hID_m k gs hgs0 g' hg'
            obtain ⟨iss', hiss', hsub⟩ :=
              freq_appendUnder_lift s.GeneFrequencies g qI g' iss hiss
            exact ⟨iss', hiss', hsub hIiss⟩
          · rcases List.mem_append.mp hg' with hg2 | hg2
            · obtain ⟨iss, hiss, hIiss⟩ := hinv qI m hID_m k gs0 hgs0 g' hg2
              obtain ⟨iss', hiss', hsub⟩ :=
                freq_appendUnder_lift s.GeneFrequencies g qI g' iss hiss
              exact ⟨iss', hiss', hsub hIiss⟩
            · obtain rfl := List.mem_singleton.mp hg2
              exact freq_appendUnder_self_mem s.GeneFrequencies g' qI
      · rw [if_neg (by simpa using hqID)] at heq
        injection heq with h1 h2
        subst h1
        subst h2
        obtain ⟨iss, hiss, hIiss⟩ := hinv qI qm hq k gs hkgs g' hg'
        obtain ⟨iss', hiss', hsub⟩ :=
          freq_appendUnder_lift s.GeneFrequencies g ID g' iss hiss
        exact ⟨iss', hiss', hsub hIiss⟩

lemma freqInv_init (isolates : List Isolate) : freqInv (initState isolates) := by
  intro I m hIm k gs hkgs g hg
  rw [initState] at hIm
  simp only [List.mem_map] at hIm
  obtain ⟨i, _, heq⟩ := hIm
  injection heq with h1 h2
  subst h2
  simp at hkgs

lemma runAssigns_preserves : ∀ (calls : List (Isolate × Abx × Gene)) (s s' : DHState),
    freqInv s → runAssigns s calls = some s' → freqInv s'
  | [], s, s', hinv, h => by
      rw [runAssigns, List.foldlM_nil] at h
      obtain rfl : s = s' := by simpa using h
      exact hinv
  | t :: calls, s, s', hinv, h => by
      rw [runAssigns, List.foldlM_cons] at h
      cases ha : assign_gene s t.1 t.2.1 t.2.2 with
      | none =>
          rw [ha] at h
          exact absurd h (by simp)
      | some s1 =>
          rw [ha] at h
          have h2 : runAssigns s1 calls = some s' := by simpa [runAssigns] using h
          exact runAssigns_preserves calls s1 s'
            (assign_gene_preserves s s1 t.1 t.2.1 t.2.2 hinv ha) h2

/-- Claim C7: after any sequence of fusion steps from the initial
handler state, every gene recorded under an isolate's key is a key of
the gene-frequency table with that isolate in its isolate set. -/
theorem fused_gene_in_frequency_table (isolates : List Isolate)
    (calls : List (Isolate × Abx × Gene)) (s' : DHState)
    (h : runAssigns (initState isolates) calls = some s') :
    ∀ I m, (I, m) ∈ s'.data → ∀ k gs, (k, gs) ∈ m → ∀ g ∈ gs,
      ∃ iss, s'.GeneFrequencies.lookup g = some iss ∧ I ∈ iss :=
  runAssigns_preserves calls (initState isolates) s' (freqInv_init isolates) h



lemma runCorr_rt_dedup : runCorr dedupFirst rtCorr
    = [("geneA", "AntibioticX", some 1, "very strong positive relationship")] := by
  rw [runCorr]
  simp only [get_antibiotic_gene_pairs]
  rw [show rtCorr.data = rtData from rfl]
  rw [show collectPairs rtData
      = [("AntibioticX", ["geneA", "geneA", "geneB", "geneB"])] from by decide]
  rw [List.map_singleton]
  rw [show dedupFirst ["geneA", "geneA", "geneB", "geneB"] = ["geneA", "geneB"] from rfl]
  simp only [List.flatMap_cons, List.flatMap_nil, List.append_nil]
  rw [rt_emitted_geneA, rt_emitted_geneB]
  rfl

theorem strength_bucket_table_witness :
    bucketOf (strength 0.4) = Bucket.strongPos
  ∧ bucketOf (strength 0.39) = Bucket.modPos :=
  ⟨(strength_bucket_table 0.4).2.1 ⟨by norm_num, by norm_num⟩,
   (strength_bucket_table 0.39).2.2.1 ⟨by norm_num, by norm_num⟩⟩

theorem nan_suppressed_witness :
    pearson [1, 0] (fetch_results rtData "AntibioticX" "geneB") = none
  ∧ (("geneA", "AntibioticX", some 1,
      "very strong positive relationship") : CorrRecord).2.2.1 ≠ none
  ∧ (("geneA", "AntibioticX", some 1,
      "very strong positive relationship") : CorrRecord).2.2.2 ≠ "No relationship" := by
  refine ⟨nan_suppressed.1 rtData "AntibioticX" "geneB" [1, 0] (Or.inl (by decide)),
    ?_, ?_⟩
  · exact (nan_suppressed.2.2 dedupFirst rtCorr _ (by rw [runCorr_rt_dedup]; simp)).1
  · exact (nan_suppressed.2.2 dedupFirst rtCorr _ (by rw [runCorr_rt_dedup]; simp)).2

theorem roundtrip_synthetic_witness :
    runCorr dedupFirst rtCorr
      = [("geneA", "AntibioticX", some 1, "very strong positive relationship")] :=
  (roundtrip_synthetic dedupFirst (Or.inl rfl)).2.2.2.2.2

theorem indicator_vector_correct_witness :
    (fetch_results dupData "KeyX" "geneD")[0]? = some 1
  ∧ (fetch_results dupData "KeyX" "geneD")[1]? = some 0 := by
  constructor
  · have h := (indicator_vector_correct dupData "KeyX" "geneD").2.1 0
      ("iso1", [("KeyX", ["geneD", "geneD"])]) rfl
    rw [h]
    decide
  · exact (indicator_vector_correct dupData "KeyX" "geneD").2.2.1 1 ("iso2", []) rfl rfl

theorem class_key_resolution_witness :
    ("Ampicillin" ∈ get_abx classCorr "geneZ" "Penicillins"
      ↔ (("Ampicillin", "Penicillins") ∈ classCorr.class_antibiotic
          ∧ "Ampicillin" ∈ classCorr.phenCols))
  ∧ (computedRecords classCorr [] "Penicillins" "geneZ").length
      = (get_abx classCorr "geneZ" "Penicillins").length
  ∧ (computedRecords classCorr [] "Penicillins" "geneZ").length = 2 := by
  have h := (class_key_resolution classCorr [] "Penicillins" "geneZ").1 (by decide)
  exact ⟨h.1 "Ampicillin", h.2.2,
    h.2.2.trans (by decide : (get_abx classCorr "geneZ" "Penicillins").length = 2)⟩


theorem fused_gene_in_frequency_table_witness :
    ∃ iss, oneCallState.GeneFrequencies.lookup "geneZ" = some iss ∧ "iso1" ∈ iss :=
  fused_gene_in_frequency_table ["iso1"] [("iso1", "AbxQ", "geneZ")] oneCallState rfl
    "iso1" [("AbxQ", ["geneZ"])] (by decide) "AbxQ" ["geneZ"] (by decide) "geneZ"
    (by decide)

theorem gap_coefficient_suppressed_witness :
    strength 0.195 = "No relationship" :=
  (gap_coefficient_suppressed 0.195 (Or.inl ⟨by norm_num, by norm_num⟩)).1
